import Mathlib

/-!
Shallow embedding of the metadata store of `src/aiapp/api.py`:
the folder/file catalog, its persistence (`_load_metadata` / `_save_metadata`),
the path guard (`_safe_rel_path` / `_safe_full_path`), and the store operations
(`create_folder`, `delete_folder`, `upload`, `delete_file`,
`_validate_folder_files`).

Modelling conventions:
* The persisted document `metadata.json` is modelled by `Stored`: either absent,
  unparsable (json.load raises), malformed (parses but is not a dict holding a
  "folders" list), or a well-typed catalog.  Documents written by
  `_save_metadata` are always well-typed catalogs; their exact bytes are given
  by the executable printer `serializeMeta`, which mirrors
  `json.dump(data, f, indent=2)` for this schema.
* The filesystem is a `Disk`: the set of folder-id directories under the
  storage root plus the set of existing regular files, each file addressed by
  its absolute path as a list of segments.
* `uuid4().hex` draws are modelled by a stream of strings carried in the state
  (`StoreState.ids`); each processed upload / folder creation pops one.
* Python `HTTPException` raise sites are modelled by the `Err` inductive, one
  constructor per distinct failure of the store's contract.
-/

/-- A file record inside a folder, as built by `upload`
(keys `original_name`, `server_name`, `size`, `normalized_server_name`). -/
structure FileEntry where
  original_name : String
  server_name : String
  size : Nat
  normalized_server_name : String
deriving Repr, DecidableEq

/-- A folder record (keys `id`, `name`, `files`). -/
structure Folder where
  id : String
  name : String
  files : List FileEntry
deriving Repr, DecidableEq

/-- The `folders` list of the metadata document. -/
abbrev MetaData := List Folder

/-- The state of the persisted document `metadata.json`. -/
inductive Stored where
  | absent
  | unparsable
  | malformed
  | catalog (folders : MetaData)
deriving Repr, DecidableEq

/-- The filesystem under the storage root: folder-id directories and regular
files (absolute paths as segment lists). -/
structure Disk where
  dirs : List String
  files : List (List String)
deriving Repr, DecidableEq

/-- Full state the store operates on. -/
structure StoreState where
  meta : Stored
  disk : Disk
  ids : List String
deriving Repr, DecidableEq

/-- One constructor per distinct `HTTPException` site of the store. -/
inductive Err where
  | invalidName
  | duplicateName
  | notFound
  | rootProtected
  | invalidPath
  | noFiles
  | tooMany
  | tooLarge (name : String)
  | notInFolder (names : List String)
  | missingOnDisk (names : List String)
deriving Repr, DecidableEq

deriving instance DecidableEq for Except

/-- One uploaded file of a batch: its client filename (`""` models a missing
filename, which the loop skips) and the total size of its byte stream. -/
structure UploadReq where
  filename : String
  size : Nat
deriving Repr, DecidableEq

/-- `MAX_FILES_PER_UPLOAD = 50`. -/
def MAX_FILES_PER_UPLOAD : Nat := 50

/-- `MAX_FILE_SIZE_BYTES = 50 * 1024 * 1024`. -/
def MAX_FILE_SIZE_BYTES : Nat := 50 * 1024 * 1024

/-- `STORAGE_DIR = APP_ROOT / "storage"` as an absolute segment list
(the concrete base directory stands for `Path(__file__).parent.resolve()`). -/
def storageRoot : List String := ["srv", "aiapp", "storage"]

/-- Python's ASCII whitespace, as `str.strip()` removes it. -/
def isPySpace (c : Char) : Bool :=
  c = ' ' ∨ c = '\t' ∨ c = '\n' ∨ c = '\r' ∨ c = '\x0b' ∨ c = '\x0c'

/-- `s.strip()`. -/
def pyStrip (s : String) : String :=
  ⟨((s.data.dropWhile isPySpace).reverse.dropWhile isPySpace).reverse⟩

/-- Splitting a character list at `'/'`, keeping empty pieces. -/
def splitSlashAux : List Char → List Char → List String
  | [], cur => [⟨cur.reverse⟩]
  | c :: rest, cur =>
    if c = '/' then ⟨cur.reverse⟩ :: splitSlashAux rest []
    else splitSlashAux rest (c :: cur)

/-- `s.split("/")` (e.g. `"".split("/") == [""]`, `"/a".split("/") == ["", "a"]`). -/
def splitSlash (s : String) : List String :=
  splitSlashAux s.data []

/-- `s.lower()`. -/
def lowerStr (s : String) : String :=
  ⟨s.data.map Char.toLower⟩

/-- `s[:n]`. -/
def takeStr (s : String) (n : Nat) : String :=
  ⟨s.data.take n⟩

/-- `s.startswith(pre)`. -/
def startsWithStr (s pre : String) : Bool :=
  pre.data.isPrefixOf s.data

/-- `str(path)` for an absolute path given as segments. -/
def joinWith (sep : String) : List String → String
  | [] => ""
  | [x] => x
  | x :: y :: rest => x ++ sep ++ joinWith sep (y :: rest)

/-- `str(path)` for an absolute path given as segments. -/
def renderAbs (segs : List String) : String :=
  "/" ++ joinWith "/" segs

/-- `p.replace("\\", "/")`. -/
def replaceBackslashes (s : String) : String :=
  ⟨s.data.map (fun c => if c = '\\' then '/' else c)⟩

/-- `_safe_rel_path`: normalize separators, strip, reject empty and any `".."`
segment. -/
def safe_rel_path (p : String) : Except Err String :=
  if pyStrip (replaceBackslashes p) = "" then .error .invalidPath
  else if (splitSlash (pyStrip (replaceBackslashes p))).contains ".." then
    .error .invalidPath
  else .ok (pyStrip (replaceBackslashes p))

/-- Lexical resolution of a segment sequence against a starting absolute path:
drops empty and `"."` segments, a `".."` segment removes the last accumulated
segment (as `Path.resolve()` does lexically). -/
def resolveSegs : List String → List String → List String
  | acc, [] => acc
  | acc, s :: rest =>
    if s = "" ∨ s = "." then resolveSegs acc rest
    else if s = ".." then resolveSegs acc.dropLast rest
    else resolveSegs (acc ++ [s]) rest

/-- `(STORAGE_DIR / rel).resolve()`: joining with an absolute path replaces the
base (pathlib semantics), otherwise the segments are appended and resolved. -/
def joinResolve (rel : String) : List String :=
  if startsWithStr rel "/" then resolveSegs [] (splitSlash rel)
  else resolveSegs storageRoot (splitSlash rel)

/-- `_safe_full_path`: guard the relative path, join and resolve against the
storage root, and accept when `str(full).startswith(str(base))`. -/
def safe_full_path (p : String) : Except Err (List String) :=
  match safe_rel_path p with
  | .error e => .error e
  | .ok rel =>
    if startsWithStr (renderAbs (joinResolve rel)) (renderAbs storageRoot) then
      .ok (joinResolve rel)
    else .error .invalidPath

/-- Whether `_safe_full_path(p)` succeeds and the resulting file exists. -/
def Disk.hasFile (d : Disk) (full : List String) : Bool :=
  d.files.contains full

/-- `full_path.exists()` for a caller-supplied relative path, `False` when the
guard rejects it. -/
def diskHasPath (d : Disk) (p : String) : Bool :=
  match safe_full_path p with
  | .ok full => d.hasFile full
  | .error _ => false

/-- Creating a file (opening for write): the path now exists. -/
def Disk.addFile (d : Disk) (full : List String) : Disk :=
  if d.files.contains full then d else ⟨d.dirs, d.files ++ [full]⟩

/-- `full.unlink()`. -/
def Disk.removeFile (d : Disk) (full : List String) : Disk :=
  ⟨d.dirs, d.files.filter (fun f => f ≠ full)⟩

/-- `(STORAGE_DIR / folder_id).mkdir(parents=True, exist_ok=True)`. -/
def Disk.addDir (d : Disk) (fid : String) : Disk :=
  if d.dirs.contains fid then d else ⟨d.dirs ++ [fid], d.files⟩

/-- `shutil.rmtree(STORAGE_DIR / folder_id)`: the directory and everything
under it disappear. -/
def Disk.removeTree (d : Disk) (fid : String) : Disk :=
  ⟨d.dirs.filter (fun x => x ≠ fid),
   d.files.filter (fun f => ¬ (storageRoot ++ [fid]).isPrefixOf f)⟩

/-- `_delete_path_quiet`: guard the path and unlink, swallowing every error. -/
def delete_path_quiet (d : Disk) (server_name : String) : Disk :=
  match safe_full_path server_name with
  | .error _ => d
  | .ok full => d.removeFile full

/-- `_default_metadata()["folders"]`'s only element. -/
def rootFolder : Folder := ⟨"root", "Root", []⟩

/-- `_default_metadata()`. -/
def default_metadata : MetaData := [rootFolder]

/-- `any(f.get("id") == "root" for f in folders)`. -/
def rootPresent (fs : MetaData) : Bool :=
  fs.any (fun f => f.id = "root")

/-- `_save_metadata`: atomically replace the persisted document with the
serialized catalog. -/
def save_metadata (s : StoreState) (data : MetaData) : StoreState :=
  { s with meta := .catalog data }

/-- The `for fd in data["folders"]: (STORAGE_DIR / fd["id"]).mkdir(...)` loop. -/
def ensureDirs (d : Disk) : MetaData → Disk
  | [] => d
  | f :: rest => ensureDirs (d.addDir f.id) rest

/-- `_load_metadata`: absent or unreadable documents silently become the
default catalog; a parsed document gets the root folder inserted when missing
and a directory ensured for every folder id. -/
def load_metadata (s : StoreState) : MetaData × StoreState :=
  match s.meta with
  | .absent =>
    (default_metadata, save_metadata s default_metadata)
  | .unparsable =>
    (default_metadata, save_metadata s default_metadata)
  | .malformed =>
    let data := default_metadata
    let s₁ := save_metadata s data
    (data, { s₁ with disk := ensureDirs s₁.disk data })
  | .catalog fs =>
    let p :=
      if rootPresent fs then (fs, s)
      else
        let data := rootFolder :: fs
        (data, save_metadata s data)
    (p.1, { p.2 with disk := ensureDirs p.2.disk p.1 })

/-- `_get_folder`: first folder whose id matches, else a 404. -/
def get_folder (data : MetaData) (folderId : String) : Except Err Folder :=
  match data.find? (fun f => f.id = folderId) with
  | some f => .ok f
  | none => .error .notFound

/-- The characters `_sanitize_name` forbids. -/
def badChars : List Char := ['\\', '/', ':', '*', '?', '"', '<', '>', '|']

/-- `_sanitize_name`: trim, reject empty, longer than 60, or any forbidden
character. -/
def sanitize_name (name : String) : Except Err String :=
  if pyStrip name = "" then .error .invalidName
  else if (pyStrip name).length > 60 then .error .invalidName
  else if (pyStrip name).data.any (fun c => badChars.contains c) then
    .error .invalidName
  else .ok (pyStrip name)

/-- Pop the next `uuid4().hex` value from the id stream. -/
def genHex (s : StoreState) : String × StoreState :=
  (s.ids.headD "", { s with ids := s.ids.tail })

/-- `create_folder`: load, sanitize, reject case-insensitive duplicate names,
append a fresh `fld_…` folder, ensure its directory, save. -/
def create_folder (s : StoreState) (name : String) :
    Except Err MetaData × StoreState :=
  let l := load_metadata s
  let data := l.1
  let s₁ := l.2
  match sanitize_name name with
  | .error e => (.error e, s₁)
  | .ok n =>
    if data.any (fun f => lowerStr f.name = lowerStr n) then
      (.error .duplicateName, s₁)
    else
      let g := genHex s₁
      let folderId := "fld_" ++ takeStr g.1 10
      let data' := data ++ [⟨folderId, n, []⟩]
      let s₂ := { g.2 with disk := g.2.disk.addDir folderId }
      (.ok data', save_metadata s₂ data')

/-- `delete_folder`: refuse `"root"` outright, else load, 404 when absent,
best-effort `rmtree`, drop the record, save. -/
def delete_folder (s : StoreState) (folderId : String) :
    Except Err MetaData × StoreState :=
  if folderId = "root" then (.error .rootProtected, s)
  else
    let l := load_metadata s
    let data := l.1
    let s₁ := l.2
    match get_folder data folderId with
    | .error e => (.error e, s₁)
    | .ok _ =>
      let s₂ :=
        if s₁.disk.dirs.contains folderId then
          { s₁ with disk := s₁.disk.removeTree folderId }
        else s₁
      let data' := data.filter (fun f => f.id ≠ folderId)
      (.ok data', save_metadata s₂ data')

/-- `orig.replace("\\", "_").replace("/", "_")`. -/
def sanitizeOrig (orig : String) : String :=
  ⟨orig.data.map (fun c => if c = '\\' ∨ c = '/' then '_' else c)⟩

/-- `(Path(name).stem, Path(name).suffix)`: the name splits at its last dot
when that dot is neither the first nor the last character. -/
def splitStemSuffix (name : String) : String × String :=
  let cs := name.data
  match ((List.range cs.length).filter
      (fun i => cs.get? i = some '.')).getLast? with
  | some i =>
    if 0 < i ∧ i < cs.length - 1 then (⟨cs.take i⟩, ⟨cs.drop i⟩)
    else (name, "")
  | none => (name, "")

/-- `f"{stem}_{file_id}{suffix}"`. -/
def mkUniqueName (stem fileId suffix : String) : String :=
  stem ++ "_" ++ fileId ++ suffix

/-- `f"{stem}_{file_id}_normalised.json"`. -/
def mkNormName (stem fileId : String) : String :=
  stem ++ "_" ++ fileId ++ "_normalised.json"

/-- Python-dict insertion: replace the binding when the key is present,
else append. -/
def dictInsert (m : List (String × FileEntry)) (k : String) (v : FileEntry) :
    List (String × FileEntry) :=
  if m.any (fun p => p.1 = k) then
    m.map (fun p => if p.1 = k then (k, v) else p)
  else m ++ [(k, v)]

/-- Python-dict lookup. -/
def dictFind (m : List (String × FileEntry)) (k : String) : Option FileEntry :=
  (m.find? (fun p => p.1 = k)).map (fun p => p.2)

/-- `{fe.get("original_name"): fe for fe in folder.get("files", [])}`. -/
def buildByName (files : List FileEntry) : List (String × FileEntry) :=
  files.foldl (fun m fe => dictInsert m fe.original_name fe) []

/-- The per-file body of `upload`'s loop.  Returns `some err` when the whole
request aborts (the oversize `raise`), together with the folder's in-memory
file list, the disk, and the remaining id stream. -/
def uploadLoop (fid : String) :
    List UploadReq → List FileEntry → List (String × FileEntry) → Disk →
      List String → Option Err × List FileEntry × Disk × List String
  | [], files, _, d, ids => (none, files, d, ids)
  | up :: rest, files, m, d, ids =>
    if up.filename = "" then uploadLoop fid rest files m d ids
    else
      let orig := up.filename
      let fileId := takeStr (ids.headD "") 8
      let ids := ids.tail
      let so := sanitizeOrig orig
      let ss := splitStemSuffix so
      let uname := mkUniqueName ss.1 fileId ss.2
      let fullP := storageRoot ++ [fid, uname]
      let nname := mkNormName ss.1 fileId
      let normP := storageRoot ++ [fid, nname]
      if up.size > MAX_FILE_SIZE_BYTES then
        (some (.tooLarge orig), files, (d.addFile fullP).removeFile fullP, ids)
      else
        let d := (d.addFile fullP).addFile normP
        let sn := fid ++ "/" ++ uname
        let nn := fid ++ "/" ++ nname
        let entry : FileEntry := ⟨orig, sn, up.size, nn⟩
        match dictFind m orig with
        | some old =>
          let d := delete_path_quiet d old.server_name
          let d := delete_path_quiet d old.normalized_server_name
          let files :=
            files.filter (fun x => x.server_name ≠ old.server_name)
          uploadLoop fid rest (files ++ [entry]) (dictInsert m orig entry) d ids
        | none =>
          uploadLoop fid rest (files ++ [entry]) (dictInsert m orig entry) d ids

/-- Replace the first folder with the given id (in-place mutation of the
object `_get_folder` returned). -/
def setFolder : MetaData → String → Folder → MetaData
  | [], _, _ => []
  | f :: rest, fid, f' =>
    if f.id = fid then f' :: rest else f :: setFolder rest fid f'

/-- `upload`: batch checks, load, 404 when the folder is absent, ensure its
directory, run the per-file loop, and save once when no file aborted. -/
def upload (s : StoreState) (folderId : String) (ups : List UploadReq) :
    Except Err MetaData × StoreState :=
  if ups.isEmpty then (.error .noFiles, s)
  else if ups.length > MAX_FILES_PER_UPLOAD then (.error .tooMany, s)
  else
    let l := load_metadata s
    let data := l.1
    let s₁ := l.2
    match get_folder data folderId with
    | .error e => (.error e, s₁)
    | .ok folder =>
      let s₂ := { s₁ with disk := s₁.disk.addDir folderId }
      let r := uploadLoop folderId ups folder.files
          (buildByName folder.files) s₂.disk s₂.ids
      match r.1 with
      | some e => (.error e, { s₂ with disk := r.2.2.1, ids := r.2.2.2 })
      | none =>
        let folder' := { folder with files := r.2.1 }
        let data' := setFolder data folderId folder'
        let s₃ := { s₂ with disk := r.2.2.1, ids := r.2.2.2 }
        (.ok data', save_metadata s₃ data')

/-- `delete_file`: load, 404 when the folder is absent, guard the path, 404
when no entry matches, best-effort delete both artifacts, drop the record,
save. -/
def delete_file (s : StoreState) (folderId serverName : String) :
    Except Err MetaData × StoreState :=
  let l := load_metadata s
  let data := l.1
  let s₁ := l.2
  match get_folder data folderId with
  | .error e => (.error e, s₁)
  | .ok folder =>
    match safe_rel_path serverName with
    | .error e => (.error e, s₁)
    | .ok sn =>
      match folder.files.find? (fun fe => fe.server_name = sn) with
      | none => (.error .notFound, s₁)
      | some entry =>
        let d := delete_path_quiet s₁.disk entry.server_name
        let d := delete_path_quiet d entry.normalized_server_name
        let kept := folder.files.filter (fun fe => fe.server_name ≠ sn)
        let folder' := { folder with files := kept }
        let data' := setFolder data folderId folder'
        (.ok data', save_metadata { s₁ with disk := d } data')

/-- The accumulation loop of `_validate_folder_files`: guard each name, sort it
into `not_in_folder` or `missing`, aborting on a guard failure. -/
def loopValidate (d : Disk) (allowed : List String) :
    List String → Except Err (List String × List String)
  | [] => .ok ([], [])
  | f :: rest =>
    match safe_rel_path f with
    | .error e => .error e
    | .ok f' =>
      if allowed.contains f' then
        match safe_full_path f' with
        | .error e => .error e
        | .ok full =>
          match loopValidate d allowed rest with
          | .error e => .error e
          | .ok r => if d.hasFile full then .ok r else .ok (r.1, f' :: r.2)
      else
        match loopValidate d allowed rest with
        | .error e => .error e
        | .ok r => .ok (f' :: r.1, r.2)

/-- `_validate_folder_files`: folder must exist, every requested name must be a
recorded `server_name`, every recorded name must exist on disk; the error
payloads carry only the first five offending names (`[:5]`). -/
def validate_folder_files (s : StoreState) (folderId : String)
    (files : List String) : Except Err Folder × StoreState :=
  let l := load_metadata s
  let data := l.1
  let s₁ := l.2
  match get_folder data folderId with
  | .error e => (.error e, s₁)
  | .ok folder =>
    let allowed := folder.files.map (fun fe => fe.server_name)
    match loopValidate s₁.disk allowed files with
    | .error e => (.error e, s₁)
    | .ok r =>
      if r.1 ≠ [] then (.error (.notInFolder (r.1.take 5)), s₁)
      else if r.2 ≠ [] then (.error (.missingOnDisk (r.2.take 5)), s₁)
      else (.ok folder, s₁)

/-- The store's operations, for statements over arbitrary operation
sequences. -/
inductive Op where
  | createFolder (name : String)
  | deleteFolder (id : String)
  | uploadFiles (fid : String) (ups : List UploadReq)
  | deleteFile (fid sn : String)
  | validate (fid : String) (files : List String)
  | loadOnly
deriving Repr, DecidableEq

/-- Run one operation, keeping only the state. -/
def stepOp (s : StoreState) : Op → StoreState
  | .createFolder n => (create_folder s n).2
  | .deleteFolder i => (delete_folder s i).2
  | .uploadFiles fid ups => (upload s fid ups).2
  | .deleteFile fid sn => (delete_file s fid sn).2
  | .validate fid files => (validate_folder_files s fid files).2
  | .loadOnly => (load_metadata s).2

/-- Run a sequence of operations. -/
def execOps (s : StoreState) (ops : List Op) : StoreState :=
  ops.foldl stepOp s

/-! ## The bytes `_save_metadata` writes: `json.dump(data, f, indent=2)` -/

/-- Lowercase hexadecimal digit. -/
def hexDigitChar (n : Nat) : Char :=
  if n < 10 then Char.ofNat (48 + n) else Char.ofNat (87 + n)

/-- Four lowercase hexadecimal digits. -/
def hex4 (n : Nat) : String :=
  String.mk [hexDigitChar (n / 4096 % 16), hexDigitChar (n / 256 % 16),
    hexDigitChar (n / 16 % 16), hexDigitChar (n % 16)]

/-- How `json.dump` (default `ensure_ascii=True`) renders one character of a
string value. -/
def jsonEscapeChar (c : Char) : String :=
  let n := c.toNat
  if c = '"' then "\\\""
  else if c = '\\' then "\\\\"
  else if c = '\n' then "\\n"
  else if c = '\r' then "\\r"
  else if c = '\t' then "\\t"
  else if n = 8 then "\\b"
  else if n = 12 then "\\f"
  else if n < 32 ∨ n > 126 then
    if n < 65536 then "\\u" ++ hex4 n
    else
      let m := n - 65536
      "\\u" ++ hex4 (55296 + m / 1024) ++ "\\u" ++ hex4 (56320 + m % 1024)
  else String.singleton c

/-- Concatenation of a list of strings. -/
def concatAll : List String → String
  | [] => ""
  | x :: rest => x ++ concatAll rest

/-- A JSON string literal. -/
def jsonStr (s : String) : String :=
  "\"" ++ concatAll (s.data.map jsonEscapeChar) ++ "\""

/-- One file entry at depth 3 of the document, keys in insertion order. -/
def serializeEntry (e : FileEntry) : String :=
  "        \x7b\n" ++
  "          \"original_name\": " ++ jsonStr e.original_name ++ ",\n" ++
  "          \"server_name\": " ++ jsonStr e.server_name ++ ",\n" ++
  "          \"size\": " ++ toString e.size ++ ",\n" ++
  "          \"normalized_server_name\": " ++
    jsonStr e.normalized_server_name ++ "\n" ++
  "        \x7d"

/-- One folder at depth 1 of the document, keys in insertion order. -/
def serializeFolder (f : Folder) : String :=
  "    \x7b\n" ++
  "      \"id\": " ++ jsonStr f.id ++ ",\n" ++
  "      \"name\": " ++ jsonStr f.name ++ ",\n" ++
  "      \"files\": " ++
  (if f.files.isEmpty then "[]"
   else "[\n" ++ joinWith ",\n" (f.files.map serializeEntry) ++
        "\n      ]") ++ "\n" ++
  "    \x7d"

/-- The full document `{"folders": [...]}` as `json.dump(..., indent=2)`
prints it. -/
def serializeMeta (fs : MetaData) : String :=
  "\x7b\n  \"folders\": " ++
  (if fs.isEmpty then "[]"
   else "[\n" ++ joinWith ",\n" (fs.map serializeFolder) ++
        "\n  ]") ++
  "\n\x7d"

/-- The bytes of the persisted document, when it is one the store wrote. -/
def storedBytes : Stored → Option String
  | .catalog fs => some (serializeMeta fs)
  | _ => none

/-! ## Helper lemmas -/

/-- The store's steady-state well-formedness: the persisted document is a
catalog that contains the root folder, and every folder's directory exists. -/
def WellFormedOn (s : StoreState) (fs : MetaData) : Prop :=
  s.meta = .catalog fs ∧ rootPresent fs = true ∧
    ∀ f ∈ fs, s.disk.dirs.contains f.id = true

theorem Disk.dirs_addDir_contains_self (d : Disk) (x : String) :
    ((d.addDir x).dirs.contains x) = true := by
  unfold Disk.addDir
  split
  · assumption
  · simp

theorem Disk.dirs_addDir_mono (d : Disk) (x y : String)
    (h : d.dirs.contains x = true) : ((d.addDir y).dirs.contains x) = true := by
  unfold Disk.addDir
  split
  · exact h
  · have hx : x ∈ d.dirs := by simpa using h
    simp [List.mem_append, hx]

theorem ensureDirs_dirs_mono (fs : MetaData) :
    ∀ (d : Disk) (x : String), d.dirs.contains x = true →
      ((ensureDirs d fs).dirs.contains x) = true := by
  induction fs with
  | nil => intro d x h; exact h
  | cons f rest ih =>
    intro d x h
    exact ih (d.addDir f.id) x (Disk.dirs_addDir_mono d x f.id h)

theorem ensureDirs_contains_of_mem (fs : MetaData) :
    ∀ (d : Disk), ∀ f ∈ fs, ((ensureDirs d fs).dirs.contains f.id) = true := by
  induction fs with
  | nil => intro d f h; cases h
  | cons g rest ih =>
    intro d f h
    rcases List.mem_cons.mp h with h | h
    · subst h
      exact ensureDirs_dirs_mono rest _ _ (Disk.dirs_addDir_contains_self d f.id)
    · exact ih (d.addDir g.id) f h

theorem Disk.addDir_of_contains (d : Disk) (x : String)
    (h : d.dirs.contains x = true) : d.addDir x = d := by
  unfold Disk.addDir
  split
  · rfl
  · next hc => exact absurd h hc

theorem ensureDirs_eq_of_all (fs : MetaData) :
    ∀ (d : Disk), (∀ f ∈ fs, d.dirs.contains f.id = true) →
      ensureDirs d fs = d := by
  induction fs with
  | nil => intro d _; rfl
  | cons g rest ih =>
    intro d h
    have hg : d.dirs.contains g.id = true := h g (List.mem_cons_self _ _)
    show ensureDirs (d.addDir g.id) rest = d
    rw [Disk.addDir_of_contains d g.id hg]
    exact ih d (fun f hf => h f (List.mem_cons_of_mem _ hf))

/-- Loading a well-formed state is the identity. -/
theorem load_metadata_of_wellFormed (s : StoreState) (fs : MetaData)
    (h : WellFormedOn s fs) : load_metadata s = (fs, s) := by
  obtain ⟨hm, hr, hd⟩ := h
  unfold load_metadata
  rw [hm]
  simp only [hr, if_true]
  rw [ensureDirs_eq_of_all fs s.disk hd]

/-- The raw string holds a `".."` segment after separator normalization. -/
def hasDotDotSeg (p : String) : Bool :=
  (splitSlash (pyStrip (replaceBackslashes p))).contains ".."

theorem safe_rel_path_of_dotdot (p : String) (h : hasDotDotSeg p = true) :
    safe_rel_path p = .error .invalidPath := by
  unfold hasDotDotSeg at h
  unfold safe_rel_path
  by_cases he : pyStrip (replaceBackslashes p) = ""
  · rw [he] at h
    exact absurd h (by decide)
  · rw [if_neg he, if_pos h]

theorem safe_rel_path_ok_inv (p rel : String) (h : safe_rel_path p = .ok rel) :
    rel = pyStrip (replaceBackslashes p) ∧
      ((splitSlash rel).contains "..") = false := by
  unfold safe_rel_path at h
  split at h
  · cases h
  · split at h
    · cases h
    · next hdd =>
      cases h
      exact ⟨rfl, Bool.not_eq_true _ ▸ (by simpa using hdd)⟩

theorem resolveSegs_isPre (segs : List String)
    (h : segs.contains ".." = false) :
    ∀ acc, acc <+: resolveSegs acc segs := by
  induction segs with
  | nil => intro acc; exact List.prefix_refl acc
  | cons s rest ih =>
    intro acc
    simp only [List.contains_cons, Bool.or_eq_false_iff] at h
    obtain ⟨hs, hrest⟩ := h
    have hsne : ¬ s = ".." := by
      intro hc
      rw [hc] at hs
      simp at hs
    unfold resolveSegs
    by_cases h1 : s = "" ∨ s = "."
    · rw [if_pos h1]; exact ih hrest acc
    · rw [if_neg h1, if_neg hsne]
      exact List.IsPrefix.trans (List.prefix_append acc [s]) (ih hrest (acc ++ [s]))

/-! ### Disk lemmas -/

theorem Disk.hasFile_addFile_self (d : Disk) (x : List String) :
    (d.addFile x).hasFile x = true := by
  unfold Disk.addFile
  split
  · assumption
  · simp [Disk.hasFile]

theorem Disk.hasFile_addFile_mono (d : Disk) (x y : List String)
    (h : d.hasFile x = true) : (d.addFile y).hasFile x = true := by
  unfold Disk.addFile
  split
  · exact h
  · have hx : x ∈ d.files := by simpa [Disk.hasFile] using h
    simp [Disk.hasFile, List.mem_append, hx]

theorem Disk.hasFile_removeFile_self (d : Disk) (x : List String) :
    (d.removeFile x).hasFile x = false := by
  simp [Disk.hasFile, Disk.removeFile, List.mem_filter]

theorem Disk.hasFile_removeFile_ne (d : Disk) (x y : List String)
    (h : x ≠ y) : (d.removeFile y).hasFile x = d.hasFile x := by
  simp [Disk.hasFile, Disk.removeFile, List.mem_filter, h]

theorem Disk.hasFile_removeFile_of_false (d : Disk) (x y : List String)
    (h : d.hasFile x = false) : (d.removeFile y).hasFile x = false := by
  by_cases hxy : x = y
  · subst hxy; exact d.hasFile_removeFile_self x
  · rw [Disk.hasFile_removeFile_ne d x y hxy]; exact h

theorem Disk.dirs_addFile (d : Disk) (x : List String) :
    (d.addFile x).dirs = d.dirs := by
  unfold Disk.addFile
  split <;> rfl

theorem Disk.dirs_removeFile (d : Disk) (x : List String) :
    (d.removeFile x).dirs = d.dirs := rfl

theorem Disk.files_addDir (d : Disk) (x : String) :
    (d.addDir x).files = d.files := by
  unfold Disk.addDir
  split <;> rfl

/-! ### Python-dict lemmas -/

theorem find?_map_replace (k : String) (v : FileEntry) :
    ∀ m : List (String × FileEntry), m.any (fun p => p.1 = k) = true →
      List.find? (fun p => p.1 = k)
          (m.map (fun p => if p.1 = k then (k, v) else p)) = some (k, v) := by
  intro m
  induction m with
  | nil => intro h; simp at h
  | cons p m ih =>
    intro h
    by_cases hp : p.1 = k
    · simp [List.find?_cons, hp]
    · have hm : m.any (fun p => p.1 = k) = true := by
        simp only [List.any_cons, Bool.or_eq_true, decide_eq_true_eq] at h
        rcases h with h | h
        · exact absurd h hp
        · simpa using h
      simp only [List.map_cons, if_neg hp, List.find?_cons,
        decide_eq_false hp]
      exact ih hm

theorem find?_map_replace_ne (k k' : String) (v : FileEntry) (hne : k' ≠ k) :
    ∀ m : List (String × FileEntry),
      List.find? (fun p => p.1 = k)
          (m.map (fun p => if p.1 = k' then (k', v) else p)) =
        List.find? (fun p => p.1 = k) m := by
  intro m
  induction m with
  | nil => rfl
  | cons p m ih =>
    by_cases hp : p.1 = k'
    · have hpk : ¬ p.1 = k := by rw [hp]; exact hne
      simp only [List.map_cons, if_pos hp, List.find?_cons,
        decide_eq_false hne, decide_eq_false hpk]
      exact ih
    · simp only [List.map_cons, if_neg hp, List.find?_cons]
      by_cases hpk : p.1 = k
      · simp only [decide_eq_true hpk]
      · simp only [decide_eq_false hpk]
        exact ih

theorem dictFind_dictInsert_self (m : List (String × FileEntry)) (k : String)
    (v : FileEntry) : dictFind (dictInsert m k v) k = some v := by
  unfold dictInsert dictFind
  split
  · next hany => rw [find?_map_replace k v m (by simpa using hany)]; rfl
  · next hany =>
    rw [List.find?_append]
    have hnone : List.find? (fun p => p.1 = k) m = none := by
      rw [List.find?_eq_none]
      intro x hx
      simp only [decide_eq_true_eq]
      intro hxk
      exact hany (by simp only [List.any_eq_true]; exact ⟨x, hx, by simpa using hxk⟩)
    rw [hnone]
    simp [List.find?_cons]

theorem dictFind_dictInsert_ne (m : List (String × FileEntry)) (k k' : String)
    (v : FileEntry) (hne : k' ≠ k) :
    dictFind (dictInsert m k' v) k = dictFind m k := by
  unfold dictInsert dictFind
  split
  · rw [find?_map_replace_ne k k' v hne m]
  · rw [List.find?_append]
    have h2 : List.find? (fun p => p.1 = k) [(k', v)] = none := by
      simp [List.find?_cons, hne]
    rw [h2]
    cases List.find? (fun p => p.1 = k) m <;> rfl

theorem dictFind_buildByName_of_filter (k : String) (old : FileEntry) :
    ∀ files : List FileEntry,
      files.filter (fun e => e.original_name = k) = [old] →
        dictFind (buildByName files) k = some old := by
  intro files
  induction files using List.reverseRecOn with
  | nil => intro h; simp at h
  | append_singleton l f ih =>
    intro h
    have hb : buildByName (l ++ [f]) =
        dictInsert (buildByName l) f.original_name f := by
      unfold buildByName
      rw [List.foldl_append]
      rfl
    rw [List.filter_append] at h
    by_cases hf : f.original_name = k
    · have hsingle : List.filter (fun e => decide (e.original_name = k)) [f] = [f] := by
        simp [List.filter, hf]
      rw [hsingle] at h
      have hlen := congrArg List.length h
      simp only [List.length_append, List.length_singleton] at hlen
      have hl0 : (l.filter (fun e => decide (e.original_name = k))).length = 0 := by omega
      have hlnil := List.eq_nil_of_length_eq_zero hl0
      rw [hlnil, List.nil_append] at h
      have hfo : f = old := by injection h
      subst hfo
      rw [hb, hf]
      exact dictFind_dictInsert_self _ k f
    · have hempty : List.filter (fun e => decide (e.original_name = k)) [f] = [] := by
        simp [List.filter, hf]
      rw [hempty, List.append_nil] at h
      rw [hb, dictFind_dictInsert_ne _ k f.original_name f hf]
      exact ih h

theorem dictFind_buildByName_of_filter_nil (k : String) :
    ∀ files : List FileEntry,
      files.filter (fun e => e.original_name = k) = [] →
        dictFind (buildByName files) k = none := by
  intro files
  induction files using List.reverseRecOn with
  | nil => intro _; rfl
  | append_singleton l f ih =>
    intro h
    rw [List.filter_append] at h
    have hl := List.append_eq_nil.mp h
    by_cases hf : f.original_name = k
    · exfalso
      have h2 := hl.2
      simp [List.filter, hf] at h2
    · have hb : buildByName (l ++ [f]) =
          dictInsert (buildByName l) f.original_name f := by
        unfold buildByName
        rw [List.foldl_append]
        rfl
      rw [hb, dictFind_dictInsert_ne _ k f.original_name f hf]
      exact ih hl.1

/-- Whatever the persisted state, the catalog `_load_metadata` returns
contains the root folder. -/
theorem rootPresent_load_metadata (s : StoreState) :
    rootPresent (load_metadata s).1 = true := by
  unfold load_metadata
  match h : s.meta with
  | .absent => simp [default_metadata, rootPresent, rootFolder]
  | .unparsable => simp [default_metadata, rootPresent, rootFolder]
  | .malformed => simp [default_metadata, rootPresent, rootFolder]
  | .catalog fs =>
    cases hr : rootPresent fs with
    | true => simp only [hr, if_true]
    | false =>
      simp only [hr]
      simp [rootPresent, rootFolder]

/-! ## Claim theorems -/

/-- C1: for every sequence of store operations, the catalog observable through
`_load_metadata` contains a folder with id `"root"` before and after each
operation, and `delete_folder "root"` always fails with `RootProtected`
leaving the state — catalog and disk — unchanged. -/
theorem c1_root_invariant (s : StoreState) (ops : List Op) :
    rootPresent (load_metadata (execOps s ops)).1 = true ∧
    delete_folder (execOps s ops) "root" =
      (.error .rootProtected, execOps s ops) := by
  refine ⟨rootPresent_load_metadata _, ?_⟩
  unfold delete_folder
  rw [if_pos rfl]

/-- C6: whenever the persisted document is absent, structurally invalid, or
unparsable, `_load_metadata` returns (no exception escapes in that scope) the
fresh default catalog holding only the root folder, and persists it. -/
theorem c6_load_repairs (s : StoreState)
    (h : s.meta = .absent ∨ s.meta = .unparsable ∨ s.meta = .malformed) :
    (load_metadata s).1 = default_metadata ∧
    (load_metadata s).2.meta = .catalog default_metadata := by
  unfold load_metadata
  rcases h with h | h | h <;> rw [h] <;> exact ⟨rfl, rfl⟩

/-- Witness for C6 at a concrete unparsable document. -/
theorem c6_load_repairs_witness :
    (load_metadata ⟨.unparsable, ⟨[], []⟩, []⟩).1 = default_metadata ∧
    (load_metadata ⟨.unparsable, ⟨[], []⟩, []⟩).2.meta =
      .catalog default_metadata :=
  c6_load_repairs ⟨.unparsable, ⟨[], []⟩, []⟩ (Or.inr (Or.inl rfl))

/-- C7 fails on the absent-document path: starting from no persisted document
and an empty disk, `_load_metadata` returns a catalog containing the folder id
`"root"` but creates no directory for it. -/
theorem c7_counterexample :
    ((load_metadata ⟨.absent, ⟨[], []⟩, []⟩).1).map Folder.id = ["root"] ∧
    ((load_metadata ⟨.absent, ⟨[], []⟩, []⟩).2.disk.dirs.contains "root")
      = false := by
  decide

/-- C7 amended: the directory guarantee holds exactly on the paths where the
persisted document parsed (including the shape-repair path): after such a
load, every folder id of the returned catalog has a directory on disk.  On the
absent-document and unparsable paths no directories are created. -/
theorem c7_amended_dirs (s : StoreState) (fs : MetaData)
    (h : s.meta = .malformed ∨ s.meta = .catalog fs) :
    ∀ f ∈ (load_metadata s).1,
      ((load_metadata s).2.disk.dirs.contains f.id) = true := by
  rcases h with h | h
  · unfold load_metadata
    rw [h]
    intro f hf
    exact ensureDirs_contains_of_mem _ _ f hf
  · unfold load_metadata
    rw [h]
    cases hr : rootPresent fs with
    | true =>
      simp only [hr, if_true]
      intro f hf
      exact ensureDirs_contains_of_mem _ _ f hf
    | false =>
      simp only [hr]
      intro f hf
      exact ensureDirs_contains_of_mem _ _ f hf

/-- Witness for the amended C7 at a concrete malformed document. -/
theorem c7_amended_dirs_witness :
    ((load_metadata ⟨.malformed, ⟨[], []⟩, []⟩).2.disk.dirs.contains
      rootFolder.id) = true :=
  c7_amended_dirs ⟨.malformed, ⟨[], []⟩, []⟩ [] (Or.inl rfl) rootFolder
    (by decide)

/-- C2 fails in its containment conjunct: the path guard accepts the string
`"/srv/aiapp/storagezz/pwn"` (no `".."` segment, and its rendering extends the
storage root's rendering by `str.startswith`), yet the resolved absolute path
is not contained within the storage root. -/
theorem c2_counterexample :
    safe_full_path "/srv/aiapp/storagezz/pwn"
      = .ok ["srv", "aiapp", "storagezz", "pwn"] ∧
    (storageRoot.isPrefixOf ["srv", "aiapp", "storagezz", "pwn"]) = false := by
  decide

/-- C2 amended: a path string with a `".."` segment is rejected by
`_safe_rel_path` with `InvalidPath`, and both `delete_file` and
`_validate_folder_files` (hence search/chat/IQA, which call it first) fail with
`InvalidPath` leaving the state unchanged, provided the addressed folder
exists; and every accepted path string that does not begin with a separator
resolves inside the storage root.  (Accepted absolute path strings can escape
the root, as the counterexample shows.) -/
theorem c2_amended_path_guard (s : StoreState) (fs : MetaData) (fid : String)
    (folder : Folder) (raw : String) (rest : List String) (p rel : String)
    (full : List String)
    (hw : WellFormedOn s fs)
    (hfold : get_folder fs fid = .ok folder)
    (hdd : hasDotDotSeg raw = true)
    (hp : safe_rel_path p = .ok rel)
    (habs : startsWithStr rel "/" = false)
    (hfull : safe_full_path p = .ok full) :
    safe_rel_path raw = .error .invalidPath ∧
    delete_file s fid raw = (.error .invalidPath, s) ∧
    validate_folder_files s fid (raw :: rest) = (.error .invalidPath, s) ∧
    (storageRoot.isPrefixOf full) = true := by
  have hload := load_metadata_of_wellFormed s fs hw
  have hrel := safe_rel_path_of_dotdot raw hdd
  refine ⟨hrel, ?_, ?_, ?_⟩
  · unfold delete_file
    rw [hload]
    simp only [hfold, hrel]
  · unfold validate_folder_files
    rw [hload]
    simp only [hfold]
    unfold loopValidate
    simp only [hrel]
  · obtain ⟨-, hnodd⟩ := safe_rel_path_ok_inv p rel hp
    unfold safe_full_path at hfull
    rw [hp] at hfull
    have hfull' : (if startsWithStr (renderAbs (joinResolve rel))
          (renderAbs storageRoot) = true
        then (Except.ok (joinResolve rel) : Except Err (List String))
        else Except.error Err.invalidPath) = Except.ok full := hfull
    by_cases hsw : startsWithStr (renderAbs (joinResolve rel))
        (renderAbs storageRoot) = true
    · rw [if_pos hsw] at hfull'
      have hj : joinResolve rel = full := by
        cases hfull'
        rfl
      rw [← hj]
      unfold joinResolve
      rw [if_neg (by rw [habs]; exact fun hc => nomatch hc)]
      rw [List.isPrefixOf_iff_prefix]
      exact resolveSegs_isPre (splitSlash rel) hnodd storageRoot
    · rw [if_neg hsw] at hfull'
      cases hfull'

/-- Witness for the amended C2 at concrete inputs. -/
theorem c2_amended_path_guard_witness :
    safe_rel_path "x/../y" = .error .invalidPath ∧
    delete_file ⟨.catalog [rootFolder], ⟨["root"], []⟩, []⟩ "root" "x/../y"
      = (.error .invalidPath, ⟨.catalog [rootFolder], ⟨["root"], []⟩, []⟩) ∧
    validate_folder_files ⟨.catalog [rootFolder], ⟨["root"], []⟩, []⟩ "root"
        ["x/../y"]
      = (.error .invalidPath, ⟨.catalog [rootFolder], ⟨["root"], []⟩, []⟩) ∧
    (storageRoot.isPrefixOf ["srv", "aiapp", "storage", "root", "a.txt"])
      = true :=
  c2_amended_path_guard ⟨.catalog [rootFolder], ⟨["root"], []⟩, []⟩
    [rootFolder] "root" rootFolder "x/../y" [] "root/a.txt" "root/a.txt"
    ["srv", "aiapp", "storage", "root", "a.txt"]
    (by refine ⟨rfl, by decide, ?_⟩; decide)
    (by decide) (by decide) (by decide) (by decide) (by decide)

/-- On guard-clean inputs the validation loop computes exactly the requested
names not recorded in the folder and the recorded ones missing from disk, in
request order. -/
theorem loopValidate_characterize (d : Disk) (allowed : List String) :
    ∀ files : List String,
      (∀ f ∈ files, safe_rel_path f = .ok f ∧ (safe_full_path f).isOk = true) →
      loopValidate d allowed files =
        .ok (files.filter (fun f => !(allowed.contains f)),
             files.filter (fun f => allowed.contains f
               && !(diskHasPath d f))) := by
  intro files
  induction files with
  | nil => intro _; rfl
  | cons f rest ih =>
    intro h
    have hf := h f (List.mem_cons_self f rest)
    obtain ⟨hrel, hok⟩ := hf
    have hrest : ∀ g ∈ rest,
        safe_rel_path g = .ok g ∧ (safe_full_path g).isOk = true :=
      fun g hg => h g (List.mem_cons_of_mem f hg)
    cases hfp : safe_full_path f with
    | error e => rw [hfp] at hok; cases hok
    | ok full =>
      have hdp : diskHasPath d f = d.hasFile full := by
        unfold diskHasPath
        rw [hfp]
      unfold loopValidate
      simp only [hrel]
      by_cases hc : allowed.contains f = true
      · simp only [hc, if_true, hfp, ih hrest]
        by_cases hdisk : d.hasFile full = true
        · simp only [hdisk, if_true, List.filter_cons, hc, hdp, hdisk,
            Bool.not_true, Bool.and_false, Bool.true_and]
          rfl
        · simp only [Bool.not_eq_true] at hdisk
          simp only [hdisk, List.filter_cons, hc, hdp, Bool.not_false,
            Bool.and_true, Bool.true_and]
          rfl
      · simp only [Bool.not_eq_true] at hc
        simp only [hc, ih hrest, List.filter_cons, Bool.not_false,
          Bool.false_and]
        rfl

/-- C5 fails in its "listing every requested name" part: requesting six names
never recorded in the (empty) root folder reports `NotInFolder` with only the
first five — the sixth requested-and-absent name `"f"` is not listed. -/
theorem c5_counterexample :
    (validate_folder_files ⟨.catalog [rootFolder], ⟨["root"], []⟩, []⟩ "root"
        ["a", "b", "c", "d", "e", "f"]).1
      = .error (.notInFolder ["a", "b", "c", "d", "e"]) ∧
    ¬ ("f" ∈ ["a", "b", "c", "d", "e"]) := by
  decide

/-- C5 amended: `_validate_folder_files` fails with `NotFound` when the folder
does not exist; otherwise (on guard-clean requests) fails with `NotInFolder`
listing the first five requested names not recorded in the folder; otherwise
fails with `MissingOnDisk` listing the first five recorded names whose backing
file is absent from disk; otherwise returns the folder — in every case
changing no state. -/
theorem c5_amended_validate (s : StoreState) (fs : MetaData)
    (fid fid₂ : String) (folder : Folder) (files files₂ : List String)
    (hw : WellFormedOn s fs)
    (hfold : get_folder fs fid = .ok folder)
    (hpaths : ∀ f ∈ files,
      safe_rel_path f = .ok f ∧ (safe_full_path f).isOk = true)
    (hnf : get_folder fs fid₂ = .error .notFound) :
    validate_folder_files s fid₂ files₂ = (.error .notFound, s) ∧
    validate_folder_files s fid files =
      (let allowed := folder.files.map (fun fe => fe.server_name)
       let notIn := files.filter (fun f => !(allowed.contains f))
       let miss := files.filter (fun f => allowed.contains f
         && !(diskHasPath s.disk f))
       if notIn ≠ [] then (.error (.notInFolder (notIn.take 5)), s)
       else if miss ≠ [] then (.error (.missingOnDisk (miss.take 5)), s)
       else (.ok folder, s)) := by
  have hload := load_metadata_of_wellFormed s fs hw
  constructor
  · unfold validate_folder_files
    rw [hload]
    simp only [hnf]
  · unfold validate_folder_files
    rw [hload]
    simp only [hfold,
      loopValidate_characterize s.disk
        (folder.files.map (fun fe => fe.server_name)) files hpaths]

/-- Witness for the amended C5: a missing folder yields `NotFound`, and a
request naming a recorded file whose artifact is gone yields `MissingOnDisk`
with that name, the state unchanged. -/
theorem c5_amended_validate_witness :
    validate_folder_files
        ⟨.catalog [rootFolder,
          ⟨"fld_v", "V", [⟨"x.txt", "fld_v/x.txt", 1, "fld_v/x_n.json"⟩,
            ⟨"y.txt", "fld_v/y.txt", 1, "fld_v/y_n.json"⟩]⟩],
         ⟨["root", "fld_v"], [["srv", "aiapp", "storage", "fld_v", "x.txt"]]⟩,
         []⟩ "zzz" []
      = (.error .notFound,
         ⟨.catalog [rootFolder,
           ⟨"fld_v", "V", [⟨"x.txt", "fld_v/x.txt", 1, "fld_v/x_n.json"⟩,
             ⟨"y.txt", "fld_v/y.txt", 1, "fld_v/y_n.json"⟩]⟩],
          ⟨["root", "fld_v"], [["srv", "aiapp", "storage", "fld_v", "x.txt"]]⟩,
          []⟩) ∧
    validate_folder_files
        ⟨.catalog [rootFolder,
          ⟨"fld_v", "V", [⟨"x.txt", "fld_v/x.txt", 1, "fld_v/x_n.json"⟩,
            ⟨"y.txt", "fld_v/y.txt", 1, "fld_v/y_n.json"⟩]⟩],
         ⟨["root", "fld_v"], [["srv", "aiapp", "storage", "fld_v", "x.txt"]]⟩,
         []⟩ "fld_v" ["fld_v/x.txt", "fld_v/y.txt"]
      = (.error (.missingOnDisk ["fld_v/y.txt"]),
         ⟨.catalog [rootFolder,
           ⟨"fld_v", "V", [⟨"x.txt", "fld_v/x.txt", 1, "fld_v/x_n.json"⟩,
             ⟨"y.txt", "fld_v/y.txt", 1, "fld_v/y_n.json"⟩]⟩],
          ⟨["root", "fld_v"], [["srv", "aiapp", "storage", "fld_v", "x.txt"]]⟩,
          []⟩) := by
  have h := c5_amended_validate
    ⟨.catalog [rootFolder,
      ⟨"fld_v", "V", [⟨"x.txt", "fld_v/x.txt", 1, "fld_v/x_n.json"⟩,
        ⟨"y.txt", "fld_v/y.txt", 1, "fld_v/y_n.json"⟩]⟩],
     ⟨["root", "fld_v"], [["srv", "aiapp", "storage", "fld_v", "x.txt"]]⟩, []⟩
    [rootFolder,
      ⟨"fld_v", "V", [⟨"x.txt", "fld_v/x.txt", 1, "fld_v/x_n.json"⟩,
        ⟨"y.txt", "fld_v/y.txt", 1, "fld_v/y_n.json"⟩]⟩]
    "fld_v" "zzz"
    ⟨"fld_v", "V", [⟨"x.txt", "fld_v/x.txt", 1, "fld_v/x_n.json"⟩,
      ⟨"y.txt", "fld_v/y.txt", 1, "fld_v/y_n.json"⟩]⟩
    ["fld_v/x.txt", "fld_v/y.txt"] []
    (by refine ⟨rfl, by decide, by decide⟩)
    (by decide) (by decide) (by decide)
  exact ⟨h.1, h.2.trans (by decide)⟩

/-- C4 fails in its "proceeds to the next file" and "committed as one catalog
save" parts: in the batch `[a.txt, big.bin, c.txt]` with `big.bin` over the
ceiling, the whole request aborts with `TooLarge`, nothing is saved (the
persisted catalog still holds no file entries, in particular none for
`c.txt`), and the already-written artifact of `a.txt` is left on disk with no
record. -/
theorem c4_counterexample :
    (upload ⟨.catalog [rootFolder], ⟨["root"], []⟩,
        ["1111111122223333", "4444444455556666"]⟩ "root"
        [⟨"a.txt", 10⟩, ⟨"big.bin", MAX_FILE_SIZE_BYTES + 1⟩, ⟨"c.txt", 5⟩]).1
      = .error (.tooLarge "big.bin") ∧
    (upload ⟨.catalog [rootFolder], ⟨["root"], []⟩,
        ["1111111122223333", "4444444455556666"]⟩ "root"
        [⟨"a.txt", 10⟩, ⟨"big.bin", MAX_FILE_SIZE_BYTES + 1⟩, ⟨"c.txt", 5⟩]).2.meta
      = .catalog [rootFolder] ∧
    ((upload ⟨.catalog [rootFolder], ⟨["root"], []⟩,
        ["1111111122223333", "4444444455556666"]⟩ "root"
        [⟨"a.txt", 10⟩, ⟨"big.bin", MAX_FILE_SIZE_BYTES + 1⟩, ⟨"c.txt", 5⟩]
      ).2.disk.files.contains
        ["srv", "aiapp", "storage", "root", "a_11111111.txt"]) = true := by
  decide

/-- C4 amended: a file whose stream exceeds the byte ceiling makes its single
upload abort with `TooLarge` and its partial artifact be deleted, but the
whole request aborts with it: no catalog save happens (the persisted document
is unchanged, so no file-entry record of the batch is committed) and the
remaining files are not processed. -/
theorem c4_amended_oversize (s : StoreState) (fs : MetaData) (fid : String)
    (folder : Folder) (big : UploadReq) (rest : List UploadReq) (hex : String)
    (restIds : List String) (stem suffix : String)
    (hw : WellFormedOn s fs)
    (hfold : get_folder fs fid = .ok folder)
    (hids : s.ids = hex :: restIds)
    (hname : ¬ big.filename = "")
    (hsize : big.size > MAX_FILE_SIZE_BYTES)
    (hlen : (big :: rest).length ≤ MAX_FILES_PER_UPLOAD)
    (hss : splitStemSuffix (sanitizeOrig big.filename) = (stem, suffix)) :
    (upload s fid (big :: rest)).1 = .error (.tooLarge big.filename) ∧
    (upload s fid (big :: rest)).2.meta = s.meta ∧
    ((upload s fid (big :: rest)).2.disk.hasFile
      (storageRoot ++ [fid, mkUniqueName stem (takeStr hex 8) suffix]))
      = false := by
  have hload := load_metadata_of_wellFormed s fs hw
  have hmemid : folder ∈ fs ∧ folder.id = fid := by
    unfold get_folder at hfold
    cases hfind : fs.find? (fun f => f.id = fid) with
    | none => rw [hfind] at hfold; cases hfold
    | some g =>
      rw [hfind] at hfold
      cases hfold
      have hpa := List.find?_some hfind
      exact ⟨List.mem_of_find?_eq_some hfind, of_decide_eq_true hpa⟩
  have hdirs : s.disk.dirs.contains fid = true := by
    rw [← hmemid.2]
    exact hw.2.2 folder hmemid.1
  have haddDir : s.disk.addDir fid = s.disk := Disk.addDir_of_contains _ _ hdirs
  unfold upload
  rw [if_neg (by simp)]
  rw [if_neg (Nat.not_lt.mpr hlen)]
  rw [hload]
  simp only [hfold, haddDir]
  unfold uploadLoop
  rw [if_neg hname]
  rw [hids]
  simp only [List.headD_cons, List.tail_cons, hss, if_pos hsize]
  refine ⟨by trivial, by trivial, ?_⟩
  exact Disk.hasFile_removeFile_self _ _

/-- Witness for the amended C4 at a concrete oversized upload. -/
theorem c4_amended_oversize_witness :
    (upload ⟨.catalog [rootFolder], ⟨["root"], []⟩, ["aaaabbbbcccc"]⟩ "root"
        [⟨"big.bin", MAX_FILE_SIZE_BYTES + 1⟩]).1
      = .error (.tooLarge "big.bin") ∧
    (upload ⟨.catalog [rootFolder], ⟨["root"], []⟩, ["aaaabbbbcccc"]⟩ "root"
        [⟨"big.bin", MAX_FILE_SIZE_BYTES + 1⟩]).2.meta
      = Stored.catalog [rootFolder] ∧
    ((upload ⟨.catalog [rootFolder], ⟨["root"], []⟩, ["aaaabbbbcccc"]⟩ "root"
        [⟨"big.bin", MAX_FILE_SIZE_BYTES + 1⟩]).2.disk.hasFile
      (storageRoot ++ ["root", mkUniqueName "big" (takeStr "aaaabbbbcccc" 8)
        ".bin"])) = false :=
  c4_amended_oversize ⟨.catalog [rootFolder], ⟨["root"], []⟩, ["aaaabbbbcccc"]⟩
    [rootFolder] "root" rootFolder ⟨"big.bin", MAX_FILE_SIZE_BYTES + 1⟩ []
    "aaaabbbbcccc" [] "big" ".bin"
    (by refine ⟨rfl, by decide, by decide⟩) (by decide) rfl (by decide)
    (by decide) (by decide) (by decide)

/-- C3: uploading a file whose `original_name` matches the (unique) existing
entry of the target folder replaces it: afterwards the folder holds exactly
one entry with that name — the new one — the prior record is gone, the prior
entry's two disk artifacts are deleted, and the new entry's two artifacts
exist on disk; the result is persisted. -/
theorem c3_dedup_replaces (s : StoreState) (fs : MetaData) (fid : String)
    (folder : Folder) (orig : String) (sz : Nat) (hex : String)
    (restIds : List String) (old : FileEntry) (stem suffix : String)
    (fullNew normNew oldFull oldNFull : List String) (entry : FileEntry)
    (kept : List FileEntry)
    (hw : WellFormedOn s fs)
    (hfold : get_folder fs fid = .ok folder)
    (hids : s.ids = hex :: restIds)
    (hname : ¬ orig = "")
    (hsz : ¬ sz > MAX_FILE_SIZE_BYTES)
    (hss : splitStemSuffix (sanitizeOrig orig) = (stem, suffix))
    (hfullNew : fullNew
      = storageRoot ++ [fid, mkUniqueName stem (takeStr hex 8) suffix])
    (hnormNew : normNew
      = storageRoot ++ [fid, mkNormName stem (takeStr hex 8)])
    (hentry : entry
      = ⟨orig, fid ++ "/" ++ mkUniqueName stem (takeStr hex 8) suffix, sz,
         fid ++ "/" ++ mkNormName stem (takeStr hex 8)⟩)
    (hkept : kept
      = folder.files.filter (fun e => e.server_name ≠ old.server_name))
    (hold : folder.files.filter (fun e => e.original_name = orig) = [old])
    (hofull : safe_full_path old.server_name = .ok oldFull)
    (honfull : safe_full_path old.normalized_server_name = .ok oldNFull)
    (hd1 : ¬ oldFull = fullNew) (hd2 : ¬ oldFull = normNew)
    (hd3 : ¬ oldNFull = fullNew) (hd4 : ¬ oldNFull = normNew) :
    (upload s fid [⟨orig, sz⟩]).1
      = .ok (setFolder fs fid { folder with files := kept ++ [entry] }) ∧
    (kept ++ [entry]).filter (fun e => e.original_name = orig) = [entry] ∧
    (upload s fid [⟨orig, sz⟩]).2.meta
      = .catalog (setFolder fs fid { folder with files := kept ++ [entry] }) ∧
    ((upload s fid [⟨orig, sz⟩]).2.disk.hasFile fullNew) = true ∧
    ((upload s fid [⟨orig, sz⟩]).2.disk.hasFile normNew) = true ∧
    ((upload s fid [⟨orig, sz⟩]).2.disk.hasFile oldFull) = false ∧
    ((upload s fid [⟨orig, sz⟩]).2.disk.hasFile oldNFull) = false := by
  subst hfullNew hnormNew hentry hkept
  have hload := load_metadata_of_wellFormed s fs hw
  have hmemid : folder ∈ fs ∧ folder.id = fid := by
    unfold get_folder at hfold
    cases hfind : fs.find? (fun f => f.id = fid) with
    | none => rw [hfind] at hfold; cases hfold
    | some g =>
      rw [hfind] at hfold
      cases hfold
      have hpa := List.find?_some hfind
      exact ⟨List.mem_of_find?_eq_some hfind, of_decide_eq_true hpa⟩
  have hdirs : s.disk.dirs.contains fid = true := by
    rw [← hmemid.2]
    exact hw.2.2 folder hmemid.1
  have haddDir : s.disk.addDir fid = s.disk := Disk.addDir_of_contains _ _ hdirs
  have hdict : dictFind (buildByName folder.files) orig = some old :=
    dictFind_buildByName_of_filter orig old folder.files hold
  have hkeptfilter : ((folder.files.filter
        (fun e => e.server_name ≠ old.server_name)) ++
      [(⟨orig, fid ++ "/" ++ mkUniqueName stem (takeStr hex 8) suffix, sz,
         fid ++ "/" ++ mkNormName stem (takeStr hex 8)⟩ : FileEntry)]).filter
        (fun e => e.original_name = orig)
      = [⟨orig, fid ++ "/" ++ mkUniqueName stem (takeStr hex 8) suffix, sz,
          fid ++ "/" ++ mkNormName stem (takeStr hex 8)⟩] := by
    rw [List.filter_append]
    have h1 : (folder.files.filter
        (fun e => e.server_name ≠ old.server_name)).filter
          (fun e => e.original_name = orig) = [] := by
      rw [List.filter_comm, hold]
      simp
    rw [h1, List.nil_append]
    simp
  unfold upload
  rw [if_neg (by simp)]
  rw [if_neg (by simp [MAX_FILES_PER_UPLOAD])]
  rw [hload]
  simp only [hfold, haddDir]
  simp only [uploadLoop]
  rw [if_neg hname]
  rw [hids]
  simp only [List.headD_cons, List.tail_cons, hss]
  rw [if_neg hsz]
  simp only [hdict]
  simp only [delete_path_quiet, hofull, honfull, save_metadata]
  refine ⟨by trivial, hkeptfilter, by trivial, ?_, ?_, ?_, ?_⟩
  · rw [Disk.hasFile_removeFile_ne _ _ _ (fun hc => hd3 hc.symm),
      Disk.hasFile_removeFile_ne _ _ _ (fun hc => hd1 hc.symm)]
    exact Disk.hasFile_addFile_mono _ _ _ (Disk.hasFile_addFile_self _ _)
  · rw [Disk.hasFile_removeFile_ne _ _ _ (fun hc => hd4 hc.symm),
      Disk.hasFile_removeFile_ne _ _ _ (fun hc => hd2 hc.symm)]
    exact Disk.hasFile_addFile_self _ _
  · exact Disk.hasFile_removeFile_of_false _ _ _
      (Disk.hasFile_removeFile_self _ _)
  · exact Disk.hasFile_removeFile_self _ _

/-- Witness for C3: re-uploading `report.pdf` into a folder that already holds
a `report.pdf` entry leaves exactly the new entry, deletes the old artifacts,
and creates the new ones. -/
theorem c3_dedup_replaces_witness :
    (upload ⟨.catalog [rootFolder, ⟨"fld_r", "R",
        [⟨"report.pdf", "fld_r/report_11111111.pdf", 7,
          "fld_r/report_11111111_normalised.json"⟩]⟩],
       ⟨["root", "fld_r"],
        [["srv", "aiapp", "storage", "fld_r", "report_11111111.pdf"],
         ["srv", "aiapp", "storage", "fld_r",
          "report_11111111_normalised.json"]]⟩,
       ["2222222233334444"]⟩ "fld_r" [⟨"report.pdf", 9⟩]).1
      = .ok [rootFolder, ⟨"fld_r", "R",
          [⟨"report.pdf", "fld_r/report_22222222.pdf", 9,
            "fld_r/report_22222222_normalised.json"⟩]⟩] ∧
    (([] ++
        [(⟨"report.pdf", "fld_r/report_22222222.pdf", 9,
          "fld_r/report_22222222_normalised.json"⟩ : FileEntry)]).filter
        (fun e => e.original_name = "report.pdf")
      = [(⟨"report.pdf", "fld_r/report_22222222.pdf", 9,
          "fld_r/report_22222222_normalised.json"⟩ : FileEntry)]) ∧
    (upload ⟨.catalog [rootFolder, ⟨"fld_r", "R",
        [⟨"report.pdf", "fld_r/report_11111111.pdf", 7,
          "fld_r/report_11111111_normalised.json"⟩]⟩],
       ⟨["root", "fld_r"],
        [["srv", "aiapp", "storage", "fld_r", "report_11111111.pdf"],
         ["srv", "aiapp", "storage", "fld_r",
          "report_11111111_normalised.json"]]⟩,
       ["2222222233334444"]⟩ "fld_r" [⟨"report.pdf", 9⟩]).2.meta
      = .catalog [rootFolder, ⟨"fld_r", "R",
          [⟨"report.pdf", "fld_r/report_22222222.pdf", 9,
            "fld_r/report_22222222_normalised.json"⟩]⟩] ∧
    ((upload ⟨.catalog [rootFolder, ⟨"fld_r", "R",
        [⟨"report.pdf", "fld_r/report_11111111.pdf", 7,
          "fld_r/report_11111111_normalised.json"⟩]⟩],
       ⟨["root", "fld_r"],
        [["srv", "aiapp", "storage", "fld_r", "report_11111111.pdf"],
         ["srv", "aiapp", "storage", "fld_r",
          "report_11111111_normalised.json"]]⟩,
       ["2222222233334444"]⟩ "fld_r" [⟨"report.pdf", 9⟩]).2.disk.hasFile
      ["srv", "aiapp", "storage", "fld_r", "report_22222222.pdf"]) = true ∧
    ((upload ⟨.catalog [rootFolder, ⟨"fld_r", "R",
        [⟨"report.pdf", "fld_r/report_11111111.pdf", 7,
          "fld_r/report_11111111_normalised.json"⟩]⟩],
       ⟨["root", "fld_r"],
        [["srv", "aiapp", "storage", "fld_r", "report_11111111.pdf"],
         ["srv", "aiapp", "storage", "fld_r",
          "report_11111111_normalised.json"]]⟩,
       ["2222222233334444"]⟩ "fld_r" [⟨"report.pdf", 9⟩]).2.disk.hasFile
      ["srv", "aiapp", "storage", "fld_r",
       "report_22222222_normalised.json"]) = true ∧
    ((upload ⟨.catalog [rootFolder, ⟨"fld_r", "R",
        [⟨"report.pdf", "fld_r/report_11111111.pdf", 7,
          "fld_r/report_11111111_normalised.json"⟩]⟩],
       ⟨["root", "fld_r"],
        [["srv", "aiapp", "storage", "fld_r", "report_11111111.pdf"],
         ["srv", "aiapp", "storage", "fld_r",
          "report_11111111_normalised.json"]]⟩,
       ["2222222233334444"]⟩ "fld_r" [⟨"report.pdf", 9⟩]).2.disk.hasFile
      ["srv", "aiapp", "storage", "fld_r", "report_11111111.pdf"]) = false ∧
    ((upload ⟨.catalog [rootFolder, ⟨"fld_r", "R",
        [⟨"report.pdf", "fld_r/report_11111111.pdf", 7,
          "fld_r/report_11111111_normalised.json"⟩]⟩],
       ⟨["root", "fld_r"],
        [["srv", "aiapp", "storage", "fld_r", "report_11111111.pdf"],
         ["srv", "aiapp", "storage", "fld_r",
          "report_11111111_normalised.json"]]⟩,
       ["2222222233334444"]⟩ "fld_r" [⟨"report.pdf", 9⟩]).2.disk.hasFile
      ["srv", "aiapp", "storage", "fld_r",
       "report_11111111_normalised.json"]) = false :=
  c3_dedup_replaces
    ⟨.catalog [rootFolder, ⟨"fld_r", "R",
        [⟨"report.pdf", "fld_r/report_11111111.pdf", 7,
          "fld_r/report_11111111_normalised.json"⟩]⟩],
     ⟨["root", "fld_r"],
      [["srv", "aiapp", "storage", "fld_r", "report_11111111.pdf"],
       ["srv", "aiapp", "storage", "fld_r",
        "report_11111111_normalised.json"]]⟩,
     ["2222222233334444"]⟩
    [rootFolder, ⟨"fld_r", "R",
      [⟨"report.pdf", "fld_r/report_11111111.pdf", 7,
        "fld_r/report_11111111_normalised.json"⟩]⟩]
    "fld_r"
    ⟨"fld_r", "R", [⟨"report.pdf", "fld_r/report_11111111.pdf", 7,
      "fld_r/report_11111111_normalised.json"⟩]⟩
    "report.pdf" 9 "2222222233334444" []
    ⟨"report.pdf", "fld_r/report_11111111.pdf", 7,
      "fld_r/report_11111111_normalised.json"⟩
    "report" ".pdf"
    ["srv", "aiapp", "storage", "fld_r", "report_22222222.pdf"]
    ["srv", "aiapp", "storage", "fld_r", "report_22222222_normalised.json"]
    ["srv", "aiapp", "storage", "fld_r", "report_11111111.pdf"]
    ["srv", "aiapp", "storage", "fld_r", "report_11111111_normalised.json"]
    ⟨"report.pdf", "fld_r/report_22222222.pdf", 9,
      "fld_r/report_22222222_normalised.json"⟩
    []
    (by refine ⟨rfl, by decide, by decide⟩) (by decide) rfl (by decide)
    (by decide) (by decide) (by decide) (by decide) (by decide) (by decide)
    (by decide) (by decide) (by decide) (by decide) (by decide) (by decide)
    (by decide)

/-- C8 fails: uploading `"s_aaaaaaaa."` (id drawn `bbbbbbbb…`) and then
`"s._bbbbbbbb"` (id drawn `aaaaaaaa…`) into the root folder yields two live
file entries with the *same* `server_name` `"root/s_aaaaaaaa._bbbbbbbb"`, even
though the two generated ids are distinct — the second original name embeds
the first upload's id, so the stem/id/extension composition collides. -/
theorem c8_counterexample :
    (upload ⟨.catalog [rootFolder], ⟨["root"], []⟩,
        ["bbbbbbbbbbbbbbbbbbbbbbbbbbbbbbbb",
         "aaaaaaaaaaaaaaaaaaaaaaaaaaaaaaaa"]⟩
        "root" [⟨"s_aaaaaaaa.", 3⟩, ⟨"s._bbbbbbbb", 4⟩]).1
      = .ok [⟨"root", "Root",
          [⟨"s_aaaaaaaa.", "root/s_aaaaaaaa._bbbbbbbb", 3,
            "root/s_aaaaaaaa._bbbbbbbb_normalised.json"⟩,
           ⟨"s._bbbbbbbb", "root/s_aaaaaaaa._bbbbbbbb", 4,
            "root/s_aaaaaaaa_normalised.json"⟩]⟩] ∧
    takeStr "bbbbbbbbbbbbbbbbbbbbbbbbbbbbbbbb" 8
      ≠ takeStr "aaaaaaaaaaaaaaaaaaaaaaaaaaaaaaaa" 8 := by
  decide

/-- C8 amended: each accepted upload's on-disk name is
`stem ++ "_" ++ id ++ suffix` for the original name's stem, the first 8 hex
characters of a fresh `uuid4().hex`, and the original extension — the appended
entry's `server_name` is exactly that name under the folder id; and among
uploads sharing the same stem and extension, distinct drawn ids always give
distinct on-disk names.  (Uniqueness across the whole catalog fails: a crafted
original name embedding another upload's id collides, as the counterexample
shows.) -/
theorem c8_amended_unique_names (s : StoreState) (fs : MetaData)
    (fid : String) (folder : Folder) (orig : String) (sz : Nat) (hex : String)
    (restIds : List String) (stem suffix i j : String)
    (hw : WellFormedOn s fs)
    (hfold : get_folder fs fid = .ok folder)
    (hids : s.ids = hex :: restIds)
    (hname : ¬ orig = "")
    (hsz : ¬ sz > MAX_FILE_SIZE_BYTES)
    (hss : splitStemSuffix (sanitizeOrig orig) = (stem, suffix))
    (hnew : folder.files.filter (fun e => e.original_name = orig) = []) :
    (upload s fid [⟨orig, sz⟩]).1
      = .ok (setFolder fs fid { folder with files := folder.files ++
          [⟨orig, fid ++ "/" ++ mkUniqueName stem (takeStr hex 8) suffix, sz,
            fid ++ "/" ++ mkNormName stem (takeStr hex 8)⟩] }) ∧
    (i ≠ j → mkUniqueName stem i suffix ≠ mkUniqueName stem j suffix) := by
  have hload := load_metadata_of_wellFormed s fs hw
  have hmemid : folder ∈ fs ∧ folder.id = fid := by
    unfold get_folder at hfold
    cases hfind : fs.find? (fun f => f.id = fid) with
    | none => rw [hfind] at hfold; cases hfold
    | some g =>
      rw [hfind] at hfold
      cases hfold
      have hpa := List.find?_some hfind
      exact ⟨List.mem_of_find?_eq_some hfind, of_decide_eq_true hpa⟩
  have hdirs : s.disk.dirs.contains fid = true := by
    rw [← hmemid.2]
    exact hw.2.2 folder hmemid.1
  have haddDir : s.disk.addDir fid = s.disk := Disk.addDir_of_contains _ _ hdirs
  have hdict : dictFind (buildByName folder.files) orig = none :=
    dictFind_buildByName_of_filter_nil orig folder.files hnew
  constructor
  · unfold upload
    rw [if_neg (by simp)]
    rw [if_neg (by simp [MAX_FILES_PER_UPLOAD])]
    rw [hload]
    simp only [hfold, haddDir]
    simp only [uploadLoop]
    rw [if_neg hname]
    rw [hids]
    simp only [List.headD_cons, List.tail_cons, hss]
    rw [if_neg hsz]
    simp only [hdict]
  · intro hij hcontra
    apply hij
    have h' := congrArg String.data hcontra
    unfold mkUniqueName at h'
    simp only [String.data_append, List.append_assoc] at h'
    have h2 := List.append_cancel_left h'
    have h3 := List.append_cancel_left h2
    have h4 := List.append_cancel_right h3
    exact String.ext h4

/-- Witness for the amended C8 at a concrete fresh upload. -/
theorem c8_amended_unique_names_witness :
    (upload ⟨.catalog [rootFolder], ⟨["root"], []⟩, ["1234567890abcdef"]⟩
        "root" [⟨"a.txt", 5⟩]).1
      = .ok (setFolder [rootFolder] "root" { rootFolder with files :=
          rootFolder.files ++
          [⟨"a.txt", "root" ++ "/" ++ mkUniqueName "a"
              (takeStr "1234567890abcdef" 8) ".txt", 5,
            "root" ++ "/" ++ mkNormName "a" (takeStr "1234567890abcdef" 8)⟩] })
      ∧
    (("11111111" : String) ≠ "22222222" →
      mkUniqueName "a" "11111111" ".txt" ≠ mkUniqueName "a" "22222222" ".txt")
    :=
  c8_amended_unique_names ⟨.catalog [rootFolder], ⟨["root"], []⟩,
      ["1234567890abcdef"]⟩
    [rootFolder] "root" rootFolder "a.txt" 5 "1234567890abcdef" [] "a" ".txt"
    "11111111" "22222222"
    (by refine ⟨rfl, by decide, by decide⟩) (by decide) rfl (by decide)
    (by decide) (by decide) (by decide)

/-- C10: the store serializes the two folder creations (each runs its whole
load-mutate-save cycle under `META_LOCK`), so in either serialization order —
the statement is symmetric in the two calls — both folders exist afterwards
with distinct ids and the persisted document holds exactly the two new
folders appended: no lost update. -/
theorem c10_serialized_creates (s : StoreState) (fs : MetaData)
    (a b na nb hex1 hex2 : String) (rest : List String)
    (hw : WellFormedOn s fs)
    (hsa : sanitize_name a = .ok na)
    (hsb : sanitize_name b = .ok nb)
    (hda : fs.any (fun f => lowerStr f.name = lowerStr na) = false)
    (hdb : fs.any (fun f => lowerStr f.name = lowerStr nb) = false)
    (hab : ¬ lowerStr na = lowerStr nb)
    (hids : s.ids = hex1 :: hex2 :: rest)
    (hidne : ¬ takeStr hex1 10 = takeStr hex2 10) :
    (create_folder s a).1
      = .ok (fs ++ [⟨"fld_" ++ takeStr hex1 10, na, []⟩]) ∧
    (create_folder (create_folder s a).2 b).1
      = .ok (fs ++ [⟨"fld_" ++ takeStr hex1 10, na, []⟩,
                    ⟨"fld_" ++ takeStr hex2 10, nb, []⟩]) ∧
    (create_folder (create_folder s a).2 b).2.meta
      = .catalog (fs ++ [⟨"fld_" ++ takeStr hex1 10, na, []⟩,
                         ⟨"fld_" ++ takeStr hex2 10, nb, []⟩]) ∧
    ¬ ("fld_" ++ takeStr hex1 10) = ("fld_" ++ takeStr hex2 10) := by
  have hload := load_metadata_of_wellFormed s fs hw
  have e1 : create_folder s a
      = (.ok (fs ++ [⟨"fld_" ++ takeStr hex1 10, na, []⟩]),
         ⟨.catalog (fs ++ [⟨"fld_" ++ takeStr hex1 10, na, []⟩]),
          s.disk.addDir ("fld_" ++ takeStr hex1 10), hex2 :: rest⟩) := by
    unfold create_folder
    rw [hload]
    simp [hsa, hda, genHex, hids, save_metadata]
  have hw1 : WellFormedOn
      ⟨.catalog (fs ++ [⟨"fld_" ++ takeStr hex1 10, na, []⟩]),
       s.disk.addDir ("fld_" ++ takeStr hex1 10), hex2 :: rest⟩
      (fs ++ [⟨"fld_" ++ takeStr hex1 10, na, []⟩]) := by
    refine ⟨rfl, ?_, ?_⟩
    · have hr := hw.2.1
      unfold rootPresent at hr ⊢
      simp [List.any_append, hr]
    · intro f hf
      rcases List.mem_append.mp hf with hf | hf
      · exact Disk.dirs_addDir_mono _ _ _ (hw.2.2 f hf)
      · rcases List.mem_singleton.mp hf with rfl
        exact Disk.dirs_addDir_contains_self _ _
  have hload1 := load_metadata_of_wellFormed _ _ hw1
  have hdb1 : (fs ++ [(⟨"fld_" ++ takeStr hex1 10, na, []⟩ : Folder)]).any
      (fun f => lowerStr f.name = lowerStr nb) = false := by
    simp [List.any_append, hdb, hab]
  have e2 : create_folder
      ⟨.catalog (fs ++ [⟨"fld_" ++ takeStr hex1 10, na, []⟩]),
       s.disk.addDir ("fld_" ++ takeStr hex1 10), hex2 :: rest⟩ b
      = (.ok ((fs ++ [⟨"fld_" ++ takeStr hex1 10, na, []⟩])
            ++ [⟨"fld_" ++ takeStr hex2 10, nb, []⟩]),
         ⟨.catalog ((fs ++ [⟨"fld_" ++ takeStr hex1 10, na, []⟩])
            ++ [⟨"fld_" ++ takeStr hex2 10, nb, []⟩]),
          (s.disk.addDir ("fld_" ++ takeStr hex1 10)).addDir
            ("fld_" ++ takeStr hex2 10), rest⟩) := by
    unfold create_folder
    rw [hload1]
    simp [hsb, hdb1, genHex, save_metadata]
  have hne : ¬ ("fld_" ++ takeStr hex1 10) = ("fld_" ++ takeStr hex2 10) := by
    intro hc
    have h' := congrArg String.data hc
    simp only [String.data_append] at h'
    exact hidne (String.ext (List.append_cancel_left h'))
  refine ⟨?_, ?_, ?_, hne⟩
  · rw [e1]
  · rw [e1]
    simp only [e2, List.append_assoc, List.singleton_append]
  · rw [e1]
    simp only [e2, List.append_assoc, List.singleton_append]

/-- Witness for C10 at two concrete folder creations. -/
theorem c10_serialized_creates_witness :
    (create_folder ⟨.catalog [rootFolder], ⟨["root"], []⟩,
        ["aaaaaaaaaa11", "bbbbbbbbbb22"]⟩ "Alpha").1
      = .ok ([rootFolder] ++ [⟨"fld_" ++ takeStr "aaaaaaaaaa11" 10,
          "Alpha", []⟩]) ∧
    (create_folder (create_folder ⟨.catalog [rootFolder], ⟨["root"], []⟩,
        ["aaaaaaaaaa11", "bbbbbbbbbb22"]⟩ "Alpha").2 "Beta").1
      = .ok ([rootFolder] ++ [⟨"fld_" ++ takeStr "aaaaaaaaaa11" 10,
          "Alpha", []⟩, ⟨"fld_" ++ takeStr "bbbbbbbbbb22" 10, "Beta", []⟩]) ∧
    (create_folder (create_folder ⟨.catalog [rootFolder], ⟨["root"], []⟩,
        ["aaaaaaaaaa11", "bbbbbbbbbb22"]⟩ "Alpha").2 "Beta").2.meta
      = .catalog ([rootFolder] ++ [⟨"fld_" ++ takeStr "aaaaaaaaaa11" 10,
          "Alpha", []⟩, ⟨"fld_" ++ takeStr "bbbbbbbbbb22" 10, "Beta", []⟩]) ∧
    ¬ ("fld_" ++ takeStr "aaaaaaaaaa11" 10)
      = ("fld_" ++ takeStr "bbbbbbbbbb22" 10) :=
  c10_serialized_creates ⟨.catalog [rootFolder], ⟨["root"], []⟩,
      ["aaaaaaaaaa11", "bbbbbbbbbb22"]⟩
    [rootFolder] "Alpha" "Beta" "Alpha" "Beta" "aaaaaaaaaa11" "bbbbbbbbbb22"
    []
    (by refine ⟨rfl, by decide, by decide⟩) (by decide) (by decide)
    (by decide) (by decide) (by decide) rfl (by decide)

/-- C9: loading a persisted catalog document (as the store writes them: a
well-typed catalog containing the root folder) and saving it back with no
intervening mutation leaves the persisted bytes — `json.dump(..., indent=2)`
output — unchanged. -/
theorem c9_roundtrip (s : StoreState) (fs : MetaData)
    (h : s.meta = .catalog fs) (hr : rootPresent fs = true) :
    (load_metadata s).1 = fs ∧
    storedBytes ((save_metadata (load_metadata s).2 (load_metadata s).1).meta)
      = storedBytes s.meta ∧
    storedBytes s.meta = some (serializeMeta fs) := by
  have h1 : (load_metadata s).1 = fs := by
    unfold load_metadata
    rw [h]
    simp [hr]
  refine ⟨h1, ?_, by simp [storedBytes, h]⟩
  rw [h1]
  simp [save_metadata, storedBytes, h]

/-- Witness for C9 at a concrete one-folder catalog. -/
theorem c9_roundtrip_witness :
    (load_metadata ⟨.catalog [rootFolder], ⟨["root"], []⟩, []⟩).1
      = [rootFolder] ∧
    storedBytes ((save_metadata
        (load_metadata ⟨.catalog [rootFolder], ⟨["root"], []⟩, []⟩).2
        (load_metadata ⟨.catalog [rootFolder], ⟨["root"], []⟩, []⟩).1).meta)
      = storedBytes (Stored.catalog [rootFolder]) ∧
    storedBytes (Stored.catalog [rootFolder])
      = some (serializeMeta [rootFolder]) :=
  c9_roundtrip ⟨.catalog [rootFolder], ⟨["root"], []⟩, []⟩ [rootFolder] rfl
    (by decide)
